import Mathlib

/-!
Verification development for the multi-scale video DiT backbone with degenerate
mixture-of-experts routing (`diffsynth/models/wan_video_dit_moe.py`).

The Python source is shallowly embedded: floating point scalars become real
numbers, complex64 tensors become `Complex`, token sequences become lists, and
raising of Python exceptions becomes `Except String`.  Learned linear layers,
normalisation and attention kernels are abstracted as uninterpreted functions wherever
only data movement (slicing, gathering, concatenation, broadcasting) is at
stake, since the claims under scrutiny concern exactly that data movement.
-/

/- ------------------------------------------------------------------------ -/
/- Multi-scale token assembler (`process_input_hidden_states`)               -/
/- ------------------------------------------------------------------------ -/

/-- Entry of the per-token RoPE frequency tensor.  A concatenated frequency
row is fully determined by the three table indices used to build it:
`self.freqs[0][t]`, `self.freqs[1][row]` and `self.freqs[2][col]`.  The
assembler is embedded at the level of these index triples. -/
structure RopeEntry where
  t : ℕ
  row : ℕ
  col : ℕ
  deriving DecidableEq, Repr

/-- Frequency rows for one time index spread over an `h × w` spatial grid,
mirroring the `spatial_freqs` construction: the `f` frequency is expanded over
the grid, the `h` frequency varies with the row, the `w` frequency with the
column, flattened in row-major order (`reshape(h * w, -1)`). -/
def spatialEntries (t h w : ℕ) : List RopeEntry :=
  (List.range h).flatMap fun r => (List.range w).map fun c => ⟨t, r, c⟩

/-- Frequency rows for a whole scale: one spatial block per time index, in
index order (the per-batch loop `for t_idx in indices` followed by
`torch.cat(..., dim=0)`). -/
def scaleRope (tIdxs : List ℕ) (h w : ℕ) : List RopeEntry :=
  tIdxs.flatMap fun t => spatialEntries t h w

/-- Output length of a 3d convolution along one axis when stride equals the
kernel size `k` (as in `patch_embedding` and the clean-x embedders):
`(n - k) // k + 1`. -/
def convStride (n k : ℕ) : ℕ := (n - k) / k + 1

/-- Replicate padding target used by `pad_for_3d_conv`: pad `n` up to the next
multiple of `k` by adding `(k - n % k) % k`. -/
def padMult (n k : ℕ) : ℕ := n + (k - n % k) % k

/-- Time index used for downsampled frame `i` of a 2x or 4x clean scale:
`valid[i]` when in range, else the last valid index (`valid[-1]`), else `0`
(the literal fallback chain in the source). -/
def frameTimes (valid : List ℕ) (cf : ℕ) : List ℕ :=
  (List.range cf).map fun i =>
    if i < valid.length then valid.getD i 0 else valid.getLastD 0

/-- Inputs for the 1x clean-latent scale: the latent tensor dimensions
(time, height, width; batch and channel are irrelevant to sequence
bookkeeping) and `clean_latent_indices` for one batch row. -/
structure Clean1xInput where
  T : ℕ
  H : ℕ
  W : ℕ
  indices : List ℕ
  deriving DecidableEq, Repr

/-- Inputs for a 2x or 4x clean-latent scale; frame indices are integers
because the source treats negative entries as invalid and filters them out. -/
structure CleanNxInput where
  T : ℕ
  H : ℕ
  W : ℕ
  indices : List ℤ
  deriving DecidableEq, Repr

/-- Valid (non-negative) frame indices of a 2x/4x scale, mirroring
`indices[indices >= 0]`. -/
def CleanNxInput.valid (c : CleanNxInput) : List ℕ :=
  (c.indices.filter fun i => 0 ≤ i).map Int.toNat

/-- Embedded time extent of a 2x/4x scale: replicate-pad then convolve with
stride = kernel `kt`. -/
def CleanNxInput.gridF (c : CleanNxInput) (kt : ℕ) : ℕ := convStride (padMult c.T kt) kt

/-- Embedded height of a 2x/4x scale. -/
def CleanNxInput.gridH (c : CleanNxInput) (kh : ℕ) : ℕ := convStride (padMult c.H kh) kh

/-- Embedded width of a 2x/4x scale. -/
def CleanNxInput.gridW (c : CleanNxInput) (kw : ℕ) : ℕ := convStride (padMult c.W kw) kw

/-- Sequence-level output of the token assembler: the token-sequence length of
`hidden_states` and the per-position RoPE frequency rows. -/
structure AssembledSeq where
  hiddenLen : ℕ
  rope : List RopeEntry
  deriving DecidableEq, Repr

/-- The 1x clean-latent step: embed via the stride `(1,2,2)` convolution
(no padding at this scale), prepend the tokens, and prepend frequency rows
taken at the 1x frame indices over the primary `h × w` grid. -/
def process1x (h w : ℕ) (c : Clean1xInput) (acc : AssembledSeq) : AssembledSeq :=
  ⟨convStride c.T 1 * convStride c.H 2 * convStride c.W 2 + acc.hiddenLen,
   scaleRope c.indices h w ++ acc.rope⟩

/-- The 2x/4x clean-latent step with kernel `(kt, kh, kw)`: skip the scale when
the index tensor is empty or has no valid entry; otherwise pad, embed, prepend
tokens and prepend frequency rows over the own downsampled grid of the scale. -/
def processCleanNx (kt kh kw : ℕ) (c : CleanNxInput) (acc : AssembledSeq) : AssembledSeq :=
  if c.indices.isEmpty then acc
  else if c.valid.isEmpty then acc
  else
    ⟨c.gridF kt * c.gridH kh * c.gridW kw + acc.hiddenLen,
     scaleRope (frameTimes c.valid (c.gridF kt)) (c.gridH kh) (c.gridW kw) ++ acc.rope⟩

/-- Sequence-bookkeeping embedding of `process_input_hidden_states` for one
batch row.  `f, h, w` is the primary patch grid produced by `patchify`;
`latentIndices = none` models the default `torch.arange(0, f)`.  Scales are
processed in source order 1x, then 2x, then 4x, each prepending in front of
the previously assembled sequence. -/
def process_input_hidden_states (f h w : ℕ) (latentIndices : Option (List ℕ))
    (clean1x : Option Clean1xInput) (clean2x clean4x : Option CleanNxInput) :
    AssembledSeq :=
  let li := latentIndices.getD (List.range f)
  let base : AssembledSeq := ⟨f * h * w, scaleRope li h w⟩
  let s1 := match clean1x with
    | none => base
    | some c => process1x h w c base
  let s2 := match clean2x with
    | none => s1
    | some c => processCleanNx 2 4 4 c s1
  let s4 := match clean4x with
    | none => s2
    | some c => processCleanNx 4 8 8 c s2
  s4

/- Length lemmas for the assembler. -/

theorem spatialEntries_length (t h w : ℕ) : (spatialEntries t h w).length = h * w := by
  induction h with
  | zero => simp [spatialEntries]
  | succ n ih =>
      simp only [spatialEntries, List.range_succ, List.flatMap_append, List.length_append,
        List.flatMap_cons, List.flatMap_nil, List.append_nil, List.length_map,
        List.length_range] at ih ⊢
      rw [ih]
      ring

theorem scaleRope_length (tIdxs : List ℕ) (h w : ℕ) :
    (scaleRope tIdxs h w).length = tIdxs.length * (h * w) := by
  induction tIdxs with
  | nil => simp [scaleRope]
  | cons a l ih =>
      simp only [scaleRope, List.flatMap_cons, List.length_append, List.length_cons] at ih ⊢
      rw [spatialEntries_length, ih]
      ring

theorem frameTimes_length (valid : List ℕ) (cf : ℕ) :
    (frameTimes valid cf).length = cf := by
  simp [frameTimes]

/- ------------------------------------------------------------------------ -/
/- Modality map, router decision policy, modality-input preprocessing        -/
/- ------------------------------------------------------------------------ -/

/-- The fixed modality-to-expert map (`self.modality_to_expert` with lookup
`dict.get(modality_type, 0)`): sekai to 0, nuscenes to 1, openx to 2, every
other label (including the literal "unknown" entry) to 0. -/
def modality_to_expert (m : String) : ℕ :=
  if m = "sekai" then 0
  else if m = "nuscenes" then 1
  else if m = "openx" then 2
  else 0

/-- Value assigned to `self.top_k` in `WanModelMoe.__init__`; the assignment is
unconditional, so the `moe_config` argument never reaches it. -/
def WanModelMoe.topK : ℕ := 1

/-- Embedding of `WanModelMoe.compute_router_decisions`.  The input tensor
`x : List (List V)` (batch of token rows) contributes only its shape:
`batch_size, seq_len, _ = combined_modality_input.shape`.  Returns
`(router_weights, router_indices, specialization_loss)`: weights all `1.0`,
indices all the mapped expert, loss `0.0`, with last dimension
`WanModelMoe.topK`. -/
def compute_router_decisions {V : Type} (x : List (List V)) (modalityType : String) :
    List (List (List ℝ)) × List (List (List ℕ)) × ℝ :=
  let B := x.length
  let S := (x.headD []).length
  let target := modality_to_expert modalityType
  (List.replicate B (List.replicate S (List.replicate WanModelMoe.topK (1 : ℝ))),
   List.replicate B (List.replicate S (List.replicate WanModelMoe.topK target)),
   0)

/-- One step of the loop in `process_modality_inputs`: an input named `n` is
processed only when `n` is one of the three recognised labels and the matching
processor attribute exists on the model (`hasattr` checks); `procs` maps an
attribute name to the processor function when the attribute exists. -/
def applyProcessor {V : Type} (procs : String → Option (V → V)) (n : String) (data : V) :
    Option V :=
  if n = "sekai" then (procs "sekai").map (· data)
  else if n = "nuscenes" then (procs "nuscenes").map (· data)
  else if n = "openx" then (procs "openx").map (· data)
  else none

/-- Embedding of `WanModelMoe.process_modality_inputs`.  Returns `none` for the
Python `return None` taken when the input mapping is falsy or MoE is disabled;
otherwise returns the processed mapping together with the final value of the
loop variable `processed` (`none` when no iteration assigned it, which makes
the trailing `return processed_modality_inputs, processed` raise `NameError`).
-/
def process_modality_inputs {V : Type} (useMoe : Bool) (procs : String → Option (V → V))
    (modalityInputs : Option (List (String × V))) :
    Option (List (String × V) × Option V) :=
  match modalityInputs with
  | none => none
  | some items =>
    if items.isEmpty ∨ useMoe = false then none
    else
      let processed := items.filterMap fun it =>
        (applyProcessor procs it.1 it.2).map fun p => (it.1, p)
      some (processed, processed.getLast?.map (·.2))

/-- First statement of `WanModelMoe.forward`:
`modality_inputs, cam_emb = self.process_modality_inputs(modality_inputs)`.
Unpacking `None` raises `TypeError`; a call that never bound `processed`
raises `NameError` inside the callee. -/
def forwardPrelude {V : Type} (useMoe : Bool) (procs : String → Option (V → V))
    (modalityInputs : Option (List (String × V))) :
    Except String (List (String × V) × V) :=
  match process_modality_inputs useMoe procs modalityInputs with
  | none => .error "TypeError: cannot unpack non-iterable NoneType object"
  | some (_, none) => .error "NameError: name processed is not defined"
  | some (d, some p) => .ok (d, p)

/- ------------------------------------------------------------------------ -/
/- Top-level forward, at sequence-bookkeeping granularity                    -/
/- ------------------------------------------------------------------------ -/

/-- Sequence-level embedding of `WanModelMoe.forward`.  The latent has shape
`[B, C, T, H, W]` and the patch size is `(pt, ph, pw)`.  After the modality
prelude, the token assembler runs, the RoPE/hidden length assertion is
checked, the blocks run (they preserve sequence length), the trailing
`original_context_length` tokens are kept (`hidden_states[:, -L:, :]`, which
keeps everything when `L = 0` or `L` exceeds the length), and the pair of the
resulting token count and the specialization loss (always `0.0` under the
degenerate router) is returned.  Note that the source computes
`original_context_length` with `p, p_t = self.patch_size[2], self.patch_size[0]`
and divides both height and width by `p`, reusing the width patch size for
the height axis. -/
def WanModelMoe.forward {V : Type} (useMoe : Bool) (procs : String → Option (V → V))
    (modalityInputs : Option (List (String × V)))
    (T H W pt ph pw : ℕ) (latentIndices : Option (List ℕ))
    (clean1x : Option Clean1xInput) (clean2x clean4x : Option CleanNxInput) :
    Except String (ℕ × ℝ) := do
  let _pm ← forwardPrelude useMoe procs modalityInputs
  let f := convStride T pt
  let h := convStride H ph
  let w := convStride W pw
  let asm := process_input_hidden_states f h w latentIndices clean1x clean2x clean4x
  let L := (T / pt) * (H / pw) * (W / pw)
  if asm.rope.length = asm.hiddenLen then
    .ok (if L = 0 then asm.hiddenLen else min L asm.hiddenLen, 0)
  else
    .error "AssertionError: RoPE frequency sequence length does not match hidden states sequence length"

/- ------------------------------------------------------------------------ -/
/- MoE combiner (`MultiModalMoE`)                                            -/
/- ------------------------------------------------------------------------ -/

/-- Statistics record returned by `collect_expert_statistics`. -/
structure ExpertStats where
  modalityType : String
  targetExpertId : ℕ
  targetExpertUsage : ℝ
  expertSelectionRatio : List ℝ
  avgExpertWeights : List ℝ
  avgTopKWeights : List ℝ
  numExperts : ℕ
  topK : ℕ

/-- Embedding of `MultiModalMoE.collect_expert_statistics`: per-expert
selection counts over all index entries, ratios with the `1e-8` guard, average
weight where an expert is selected (`0` when never selected), per-slot mean
weights over the batch and sequence axes, and the target-expert usage. -/
noncomputable def collect_expert_statistics (numExperts topK : ℕ)
    (expertWeights : List (List (List ℝ))) (topKIndices : List (List (List ℕ)))
    (modalityType : String) (targetExpertId : ℕ) : ExpertStats :=
  let flatIdx := topKIndices.flatten.flatten
  let flatW := expertWeights.flatten.flatten
  let selCount : ℕ → ℝ := fun e => ((flatIdx.filter fun i => i = e).length : ℝ)
  let total : ℝ := ∑ e ∈ Finset.range numExperts, selCount e
  let ratio : ℕ → ℝ := fun e => selCount e / (total + 1 / 100000000)
  let pairs := flatIdx.zip flatW
  let avgW : ℕ → ℝ := fun e =>
    let sel := (pairs.filter fun q => q.1 = e).map (·.2)
    if sel.length = 0 then 0 else sel.sum / sel.length
  let avgTopK : List ℝ := (List.range topK).map fun k =>
    let col := expertWeights.flatten.filterMap (·.getD k 0)
    col.sum / col.length
  { modalityType := modalityType
    targetExpertId := targetExpertId
    targetExpertUsage := ratio targetExpertId
    expertSelectionRatio := (List.range numExperts).map ratio
    avgExpertWeights := (List.range numExperts).map avgW
    avgTopKWeights := avgTopK
    numExperts := numExperts
    topK := topK }

/-- Per-token body of the combination loop `for k in range(self.top_k)` in
`MultiModalMoE.forward`: read slot `k` of `top_k_indices` (integer indexing,
`IndexError` when the last axis is too short), gather the selected expert
output (`RuntimeError` when the index reaches past `num_experts`), read the
slot weight, and accumulate `weight * expert_output` starting from the zero
tensor. -/
def moeTokenOut {V : Type} [AddCommMonoid V] [Module ℝ V]
    (numExperts topK : ℕ) (experts : ℕ → V → V)
    (x : V) (weights : List ℝ) (indices : List ℕ) : Except String V :=
  (List.range topK).foldlM (fun acc k =>
    match indices.get? k with
    | none => .error "IndexError: index out of bounds for dimension 2"
    | some i =>
      if i < numExperts then
        match weights.get? k with
        | some w => .ok (acc + w • experts i x)
        | none => .error "RuntimeError: weight slice shape mismatch"
      else .error "RuntimeError: gather index out of range") 0

/-- Elementwise zip of three equally shaped axes; a tensor-shape mismatch on a
shared axis is a runtime error in the source. -/
def zip3M {α β γ δ : Type} (g : α → β → γ → Except String δ) :
    List α → List β → List γ → Except String (List δ)
  | [], [], [] => .ok []
  | a :: as, b :: bs, c :: cs => do
      let d ← g a b c
      let ds ← zip3M g as bs cs
      .ok (d :: ds)
  | _, _, _ => .error "RuntimeError: tensor shape mismatch"

/-- Embedding of `MultiModalMoE.forward`.  `x` is the unified-dimension token
grid `[batch, seq]` with abstract token values, `experts i` the `i`-th expert
linear layer, `expertWeights` and `topKIndices` the externally supplied router
decision `[batch, seq, top_k]`.  Returns the combined output together with the
statistics record; the dtype round-trip of the source is the identity in real
arithmetic. -/
noncomputable def MultiModalMoE.forward {V : Type} [AddCommMonoid V] [Module ℝ V]
    (numExperts topK : ℕ) (experts : ℕ → V → V)
    (x : List (List V)) (expertWeights : List (List (List ℝ)))
    (topKIndices : List (List (List ℕ))) (modalityType : String) :
    Except String (List (List V)) × ExpertStats :=
  let targetExpertId := modality_to_expert modalityType
  let stats := collect_expert_statistics numExperts topK expertWeights topKIndices
    modalityType targetExpertId
  (zip3M (zip3M (moeTokenOut numExperts topK experts)) x expertWeights topKIndices, stats)

/- ------------------------------------------------------------------------ -/
/- Rotary frequency tables and RoPE application                              -/
/- ------------------------------------------------------------------------ -/

/-- Entry of the 1d rotary table `precompute_freqs_cis(dim, end, theta)` at
position `p` and slot `k`: `torch.polar(1, p * freq_k)` with
`freq_k = 1.0 / theta ** (2 k / dim)`, i.e. the unit complex number of angle
`p * freq_k`. -/
noncomputable def freqsCisEntry (dim : ℕ) (theta : ℝ) (p k : ℕ) : ℂ :=
  Complex.exp ((((p : ℝ) * (1 / theta ^ ((2 * (k : ℝ)) / (dim : ℝ)))) : ℝ) * Complex.I)

/-- Embedding of `precompute_freqs_cis`: an `end × (dim // 2)` table of unit
complex rotation factors (`arange(0, dim, 2)[: dim // 2]` has element `2 k` at
slot `k`). -/
noncomputable def precompute_freqs_cis (dim endPos : ℕ) (theta : ℝ) : List (List ℂ) :=
  (List.range endPos).map fun p => (List.range (dim / 2)).map fun k =>
    freqsCisEntry dim theta p k

/-- Embedding of `precompute_freqs_cis_3d`: the axis split gives the time axis
`dim - 2 * (dim // 3)` and the height and width axes `dim // 3` each. -/
noncomputable def precompute_freqs_cis_3d (dim endPos : ℕ) (theta : ℝ) :
    List (List ℂ) × List (List ℂ) × List (List ℂ) :=
  (precompute_freqs_cis (dim - 2 * (dim / 3)) endPos theta,
   precompute_freqs_cis (dim / 3) endPos theta,
   precompute_freqs_cis (dim / 3) endPos theta)

/-- Embedding of `rope_apply` for one head of one token: the projected vector
is viewed as consecutive complex pairs and multiplied elementwise by the
per-position frequency vector (the double-precision round trip of the source
is the identity in exact arithmetic). -/
def rope_apply (x freqs : List ℂ) : List ℂ := List.zipWith (· * ·) x freqs

/- ------------------------------------------------------------------------ -/
/- Cross attention                                                           -/
/- ------------------------------------------------------------------------ -/

/-- Learned sub-modules of `CrossAttention`, abstracted as functions on token
values: the Q/K/V/O linear maps, the RMS norms, the image-branch K/V maps and
norm, and the attention kernel `(q, k, v) -> per-query outputs`. -/
structure CrossAttnM (V : Type) where
  q : V → V
  k : V → V
  v : V → V
  o : V → V
  normQ : V → V
  normK : V → V
  kImg : V → V
  vImg : V → V
  normKImg : V → V
  attn : List V → List V → List V → List V

/-- Embedding of `CrossAttention.forward`.  With image input enabled the
context is pre-split by plain slicing: `img = y[:, :257]`, `ctx = y[:, 257:]`;
the image-branch attention output is added to the text-branch output before
the final output projection.  Slicing never raises, so a context shorter than
257 tokens silently yields a short image slice and an empty text context. -/
def CrossAttention.forward {V : Type} [Add V] (M : CrossAttnM V) (hasImageInput : Bool)
    (x y : List V) : List V :=
  let img := y.take 257
  let ctx := if hasImageInput then y.drop 257 else y
  let qv := (x.map M.q).map M.normQ
  let kv := (ctx.map M.k).map M.normK
  let vv := ctx.map M.v
  let outTxt := M.attn qv kv vv
  let out :=
    if hasImageInput then
      List.zipWith (· + ·) outTxt
        (M.attn qv ((img.map M.kImg).map M.normKImg) (img.map M.vImg))
    else outTxt
  out.map M.o

/-- Concrete instantiation of the cross-attention sub-modules over real token
values, used to evaluate the forward pass at concrete inputs. -/
def dummyCrossAttn : CrossAttnM ℝ :=
  ⟨id, id, id, id, id, id, id, id, id, fun qv _ _ => qv⟩

/- ------------------------------------------------------------------------ -/
/- Claims                                                                   -/
/- ------------------------------------------------------------------------ -/

/-- C1: the single-scale forward scenario of the spec (MoE disabled, no
modality inputs, latent `[1, 16, 4, 16, 16]`, patch size `(1, 2, 2)`) cannot
return a predicted tensor at all: `forward` begins with
`modality_inputs, cam_emb = self.process_modality_inputs(modality_inputs)`,
and `process_modality_inputs` returns `None` whenever the modality mapping is
absent or MoE is disabled, so the unpacking raises `TypeError` before any
computation happens.  The claimed output shape and zero loss are thus
unreachable on this code path. -/
theorem c1_forward_unpack_type_error :
    WanModelMoe.forward (V := ℝ) false (fun _ => none) none 4 16 16 1 2 2
        none none none none =
      Except.error "TypeError: cannot unpack non-iterable NoneType object" := rfl

theorem process1x_align (h w : ℕ) (c : Clean1xInput) (acc : AssembledSeq)
    (hacc : acc.rope.length = acc.hiddenLen)
    (hT : c.indices.length = convStride c.T 1)
    (hH : convStride c.H 2 = h) (hW : convStride c.W 2 = w) :
    (process1x h w c acc).rope.length = (process1x h w c acc).hiddenLen := by
  simp only [process1x, List.length_append, scaleRope_length, hacc, hT, ← hH, ← hW]
  ring

theorem processCleanNx_align (kt kh kw : ℕ) (c : CleanNxInput) (acc : AssembledSeq)
    (hacc : acc.rope.length = acc.hiddenLen) :
    (processCleanNx kt kh kw c acc).rope.length =
      (processCleanNx kt kh kw c acc).hiddenLen := by
  unfold processCleanNx
  split
  · exact hacc
  · split
    · exact hacc
    · simp only [List.length_append, scaleRope_length, frameTimes_length, hacc]
      ring

/-- C2: for every combination of enabled clean-latent scales with validly
shaped inputs (latent indices as long as the patch grid, 1x clean latents with
one frame per index and the same embedded spatial grid as the primary
latents), the assembled token sequence and RoPE frequency tensor have equal
sequence lengths; and whenever the lengths disagree, a forward pass that got
past the modality prelude aborts with the assertion error rather than
silently slicing or padding. -/
theorem c2_token_freq_alignment :
    (∀ (f h w : ℕ) (li : Option (List ℕ)) (c1 : Option Clean1xInput)
        (c2 c4 : Option CleanNxInput),
        (∀ l, li = some l → l.length = f) →
        (∀ c, c1 = some c → c.indices.length = convStride c.T 1 ∧
          convStride c.H 2 = h ∧ convStride c.W 2 = w) →
        (process_input_hidden_states f h w li c1 c2 c4).rope.length =
          (process_input_hidden_states f h w li c1 c2 c4).hiddenLen) ∧
    (∀ (V : Type) (useMoe : Bool) (procs : String → Option (V → V))
        (mi : Option (List (String × V))) (pm : List (String × V) × V)
        (T H W pt ph pw : ℕ) (li : Option (List ℕ)) (c1 : Option Clean1xInput)
        (c2 c4 : Option CleanNxInput),
        forwardPrelude useMoe procs mi = .ok pm →
        (process_input_hidden_states (convStride T pt) (convStride H ph)
            (convStride W pw) li c1 c2 c4).rope.length ≠
          (process_input_hidden_states (convStride T pt) (convStride H ph)
            (convStride W pw) li c1 c2 c4).hiddenLen →
        WanModelMoe.forward useMoe procs mi T H W pt ph pw li c1 c2 c4 =
          .error "AssertionError: RoPE frequency sequence length does not match hidden states sequence length") := by
  constructor
  · intro f h w li c1 c2 c4 hli hc1
    have hbase : (⟨f * h * w, scaleRope (li.getD (List.range f)) h w⟩ : AssembledSeq).rope.length
        = (⟨f * h * w, scaleRope (li.getD (List.range f)) h w⟩ : AssembledSeq).hiddenLen := by
      show (scaleRope (li.getD (List.range f)) h w).length = f * h * w
      rw [scaleRope_length]
      have : (li.getD (List.range f)).length = f := by
        cases li with
        | none => simp
        | some l => simpa using hli l rfl
      rw [this]; ring
    simp only [process_input_hidden_states]
    have h1 : ∀ (o : Option Clean1xInput),
        (∀ c, o = some c → c.indices.length = convStride c.T 1 ∧
          convStride c.H 2 = h ∧ convStride c.W 2 = w) →
        ∀ s : AssembledSeq, s.rope.length = s.hiddenLen →
        ((match o with | none => s | some c => process1x h w c s) : AssembledSeq).rope.length =
          (match o with | none => s | some c => process1x h w c s).hiddenLen := by
      intro o ho s hs
      cases o with
      | none => exact hs
      | some c =>
        obtain ⟨hT, hH, hW⟩ := ho c rfl
        exact process1x_align h w c s hs hT hH hW
    have h2 : ∀ (c2 : Option CleanNxInput) (kt kh kw : ℕ) (s : AssembledSeq),
        s.rope.length = s.hiddenLen →
        ((match c2 with | none => s | some c => processCleanNx kt kh kw c s) :
            AssembledSeq).rope.length =
          (match c2 with | none => s | some c => processCleanNx kt kh kw c s).hiddenLen := by
      intro c2 kt kh kw s hs
      cases c2 with
      | none => exact hs
      | some c => exact processCleanNx_align kt kh kw c s hs
    exact h2 c4 4 8 8 _ (h2 c2 2 4 4 _ (h1 c1 hc1 _ hbase))
  · intro V useMoe procs mi pm T H W pt ph pw li c1 c2 c4 hpre hne
    unfold WanModelMoe.forward
    rw [hpre]
    exact if_neg hne

/-- Witness for C2: a concrete valid two-scale input where the lengths agree,
and a concrete invalid input (two latent indices for a one-frame grid) on
which the forward pass aborts with the assertion error. -/
theorem c2_token_freq_alignment_witness :
    (process_input_hidden_states 2 3 4 none (some ⟨2, 6, 8, [7, 9]⟩)
        (some ⟨3, 5, 6, [0, -1]⟩) none).rope.length =
      (process_input_hidden_states 2 3 4 none (some ⟨2, 6, 8, [7, 9]⟩)
        (some ⟨3, 5, 6, [0, -1]⟩) none).hiddenLen ∧
    WanModelMoe.forward (V := ℝ) true (fun _ => some id) (some [("sekai", (0 : ℝ))])
        1 1 1 1 1 1 (some [0, 1]) none none none =
      .error "AssertionError: RoPE frequency sequence length does not match hidden states sequence length" :=
  ⟨c2_token_freq_alignment.1 2 3 4 none (some ⟨2, 6, 8, [7, 9]⟩) (some ⟨3, 5, 6, [0, -1]⟩)
      none (fun l hl => by cases hl) (fun c hc => by cases hc; exact ⟨by decide, by decide, by decide⟩),
   c2_token_freq_alignment.2 ℝ true (fun _ => some id) (some [("sekai", (0 : ℝ))])
      ([("sekai", (0 : ℝ))], (0 : ℝ)) 1 1 1 1 1 1 (some [0, 1]) none none none rfl (by decide)⟩

/-- C3: the router decision policy depends only on the modality label and the
input shape: two calls on equally shaped inputs agree; the returned indices
are uniformly the mapped expert, the weights uniformly `1.0`, the
specialization loss `0`; the map sends sekai to 0, nuscenes to 1, openx to 2,
and every other label (including "unknown") to 0. -/
theorem c3_router_decision_policy {V : Type} (x1 x2 : List (List V)) (label : String)
    (hB : x1.length = x2.length) (hS : (x1.headD []).length = (x2.headD []).length) :
    compute_router_decisions x1 label = compute_router_decisions x2 label ∧
    (∀ b ∈ (compute_router_decisions x1 label).2.1, ∀ s ∈ b, ∀ i ∈ s,
      i = modality_to_expert label) ∧
    (∀ b ∈ (compute_router_decisions x1 label).1, ∀ s ∈ b, ∀ v ∈ s, v = (1 : ℝ)) ∧
    (compute_router_decisions x1 label).2.2 = 0 ∧
    modality_to_expert "sekai" = 0 ∧ modality_to_expert "nuscenes" = 1 ∧
    modality_to_expert "openx" = 2 ∧ modality_to_expert "unknown" = 0 ∧
    (label ≠ "sekai" → label ≠ "nuscenes" → label ≠ "openx" →
      modality_to_expert label = 0) := by
  refine ⟨?_, ?_, ?_, rfl, rfl, rfl, rfl, rfl, ?_⟩
  · unfold compute_router_decisions
    rw [hB, hS]
  · intro b hb s hs i hi
    simp only [compute_router_decisions] at hb
    rw [List.eq_of_mem_replicate hb] at hs
    rw [List.eq_of_mem_replicate hs] at hi
    exact List.eq_of_mem_replicate hi
  · intro b hb s hs v hv
    simp only [compute_router_decisions] at hb
    rw [List.eq_of_mem_replicate hb] at hs
    rw [List.eq_of_mem_replicate hs] at hv
    exact List.eq_of_mem_replicate hv
  · intro h1 h2 h3
    unfold modality_to_expert
    rw [if_neg h1, if_neg h2, if_neg h3]

/-- Witness for C3: two one-token inputs with equal shape but different
values, label "nuscenes". -/
theorem c3_router_decision_policy_witness :
    compute_router_decisions [[(0 : ℝ)]] "nuscenes" =
      compute_router_decisions [[(1 : ℝ)]] "nuscenes" ∧
    (∀ b ∈ (compute_router_decisions [[(0 : ℝ)]] "nuscenes").2.1, ∀ s ∈ b, ∀ i ∈ s,
      i = modality_to_expert "nuscenes") ∧
    (∀ b ∈ (compute_router_decisions [[(0 : ℝ)]] "nuscenes").1, ∀ s ∈ b, ∀ v ∈ s,
      v = (1 : ℝ)) ∧
    (compute_router_decisions [[(0 : ℝ)]] "nuscenes").2.2 = 0 ∧
    modality_to_expert "sekai" = 0 ∧ modality_to_expert "nuscenes" = 1 ∧
    modality_to_expert "openx" = 2 ∧ modality_to_expert "unknown" = 0 ∧
    ("nuscenes" ≠ "sekai" → "nuscenes" ≠ "nuscenes" → "nuscenes" ≠ "openx" →
      modality_to_expert "nuscenes" = 0) :=
  c3_router_decision_policy [[(0 : ℝ)]] [[(1 : ℝ)]] "nuscenes" rfl rfl

/-- C4: whenever 1x, 2x and 4x clean latents are all supplied (with nonempty
valid indices), the assembled RoPE sequence is exactly
`[4x rows][2x rows][1x rows][primary rows]`, each segment built from its own
own-scale frame indices and spatial grid; with only 2x and 1x supplied the
order is `[2x rows][1x rows][primary rows]`. -/
theorem c4_clean_latent_prepend_order (f h w : ℕ) (li : Option (List ℕ))
    (c1 : Clean1xInput) (c2 c4 : CleanNxInput)
    (h2a : c2.indices.isEmpty = false) (h2b : c2.valid.isEmpty = false)
    (h4a : c4.indices.isEmpty = false) (h4b : c4.valid.isEmpty = false) :
    ((process_input_hidden_states f h w li (some c1) (some c2) (some c4)).rope =
      scaleRope (frameTimes c4.valid (c4.gridF 4)) (c4.gridH 8) (c4.gridW 8) ++
      scaleRope (frameTimes c2.valid (c2.gridF 2)) (c2.gridH 4) (c2.gridW 4) ++
      scaleRope c1.indices h w ++
      scaleRope (li.getD (List.range f)) h w) ∧
    ((process_input_hidden_states f h w li (some c1) (some c2) none).rope =
      scaleRope (frameTimes c2.valid (c2.gridF 2)) (c2.gridH 4) (c2.gridW 4) ++
      scaleRope c1.indices h w ++
      scaleRope (li.getD (List.range f)) h w) := by
  constructor <;>
    simp [process_input_hidden_states, process1x, processCleanNx, h2a, h2b, h4a, h4b]

/-- Witness for C4: concrete one-frame scales with recognisable frame
indices 5 (1x), 0 (2x) and 1 (4x). -/
theorem c4_clean_latent_prepend_order_witness :
    ((process_input_hidden_states 1 1 1 none (some ⟨1, 2, 2, [5]⟩) (some ⟨1, 1, 1, [0]⟩)
        (some ⟨1, 1, 1, [1]⟩)).rope =
      scaleRope (frameTimes (CleanNxInput.valid ⟨1, 1, 1, [1]⟩)
          (CleanNxInput.gridF ⟨1, 1, 1, [1]⟩ 4))
        (CleanNxInput.gridH ⟨1, 1, 1, [1]⟩ 8) (CleanNxInput.gridW ⟨1, 1, 1, [1]⟩ 8) ++
      scaleRope (frameTimes (CleanNxInput.valid ⟨1, 1, 1, [0]⟩)
          (CleanNxInput.gridF ⟨1, 1, 1, [0]⟩ 2))
        (CleanNxInput.gridH ⟨1, 1, 1, [0]⟩ 4) (CleanNxInput.gridW ⟨1, 1, 1, [0]⟩ 4) ++
      scaleRope [5] 1 1 ++
      scaleRope ((none : Option (List ℕ)).getD (List.range 1)) 1 1) ∧
    ((process_input_hidden_states 1 1 1 none (some ⟨1, 2, 2, [5]⟩) (some ⟨1, 1, 1, [0]⟩)
        none).rope =
      scaleRope (frameTimes (CleanNxInput.valid ⟨1, 1, 1, [0]⟩)
          (CleanNxInput.gridF ⟨1, 1, 1, [0]⟩ 2))
        (CleanNxInput.gridH ⟨1, 1, 1, [0]⟩ 4) (CleanNxInput.gridW ⟨1, 1, 1, [0]⟩ 4) ++
      scaleRope [5] 1 1 ++
      scaleRope ((none : Option (List ℕ)).getD (List.range 1)) 1 1) :=
  c4_clean_latent_prepend_order 1 1 1 none ⟨1, 2, 2, [5]⟩ ⟨1, 1, 1, [0]⟩ ⟨1, 1, 1, [1]⟩
    (by decide) (by decide) (by decide) (by decide)

theorem freqsCisEntry_abs (dim : ℕ) (theta : ℝ) (p k : ℕ) :
    Complex.abs (freqsCisEntry dim theta p k) = 1 :=
  Complex.abs_exp_ofReal_mul_I _

theorem mul_mul_conj_of_abs_one (z g : ℂ) (hg : Complex.abs g = 1) :
    z * g * (starRingEnd ℂ) g = z := by
  rw [mul_assoc, Complex.mul_conj]
  simp [Complex.normSq_eq_abs, hg]

theorem rope_apply_roundtrip (x fs : List ℂ) (hlen : x.length = fs.length)
    (hunit : ∀ g ∈ fs, Complex.abs g = 1) :
    rope_apply (rope_apply x fs) (fs.map (starRingEnd ℂ)) = x := by
  induction x generalizing fs with
  | nil => simp [rope_apply]
  | cons a l ih =>
      cases fs with
      | nil => simp at hlen
      | cons g gs =>
          simp only [rope_apply, List.map_cons, List.zipWith_cons_cons]
          rw [mul_mul_conj_of_abs_one a g (hunit g (List.mem_cons_self g gs))]
          have := ih gs (by simpa using hlen) fun f hf => hunit f (List.mem_cons_of_mem g hf)
          simpa [rope_apply] using this

/-- C6: every precomputed rotary frequency entry is a unit-magnitude complex
number, and applying `rope_apply` with a list of precomputed frequencies and
then with their complex conjugates (rotation by the negative angle)
reconstructs the original complex-pair vector exactly (real arithmetic plays
the role of the floating-point tolerance). -/
theorem c6_rope_rotation_roundtrip (dim p k : ℕ) (theta : ℝ) (x : List ℂ)
    (pks : List (ℕ × ℕ)) (hlen : x.length = pks.length) :
    Complex.abs (freqsCisEntry dim theta p k) = 1 ∧
    rope_apply (rope_apply x (pks.map fun q => freqsCisEntry dim theta q.1 q.2))
        ((pks.map fun q => freqsCisEntry dim theta q.1 q.2).map (starRingEnd ℂ)) = x := by
  refine ⟨freqsCisEntry_abs dim theta p k, ?_⟩
  exact rope_apply_roundtrip x _ (by simpa using hlen)
    (by intro g hg; obtain ⟨q, _, rfl⟩ := List.mem_map.mp hg; exact freqsCisEntry_abs _ _ _ _)

/-- Witness for C6: one complex pair rotated by the table entry at position 0,
slot 0 of a dimension-4 table with `theta = 10000`. -/
theorem c6_rope_rotation_roundtrip_witness :
    Complex.abs (freqsCisEntry 4 10000 0 0) = 1 ∧
    rope_apply (rope_apply [(⟨3, 5⟩ : ℂ)] ([((0 : ℕ), (0 : ℕ))].map fun q => freqsCisEntry 4 10000 q.1 q.2))
        (([((0 : ℕ), (0 : ℕ))].map fun q => freqsCisEntry 4 10000 q.1 q.2).map (starRingEnd ℂ)) =
      [(⟨3, 5⟩ : ℂ)] :=
  c6_rope_rotation_roundtrip 4 0 0 10000 [(⟨3, 5⟩ : ℂ)] [((0 : ℕ), (0 : ℕ))] rfl

theorem precompute_freqs_cis_entry (d endPos : ℕ) (theta : ℝ) (p k : ℕ)
    (hp : p < endPos) (hk : k < d / 2) :
    ((precompute_freqs_cis d endPos theta).getD p []).getD k 0 =
      freqsCisEntry d theta p k := by
  unfold precompute_freqs_cis
  simp [List.getD_eq_getElem?_getD, List.getElem?_map, List.getElem?_range, hp, hk]

theorem freqsCisEntry_rpow_neg (d p k : ℕ) :
    freqsCisEntry d 10000 p k =
      Complex.exp ((((p : ℝ) * (10000 : ℝ) ^ (-((2 * (k : ℝ)) / (d : ℝ)))) : ℝ) *
        Complex.I) := by
  unfold freqsCisEntry
  rw [Real.rpow_neg (by norm_num : (0 : ℝ) ≤ 10000), one_div]

/-- C7: `precompute_freqs_cis_3d` builds three tables whose axis dimensions
are `d - 2 * (d / 3)` (time) and `d / 3` (height and width): each table has
one row per position up to the maximum extent, each row has `axis_dim / 2`
frequency slots, and for every axis the entry at position `p` and slot `k`
below that axis own slot count is the unit-magnitude complex number of angle
`p * theta ^ (-2 k / axis_dim)` with `theta = 10000` (`kf` ranges over the
time-axis slots, `ks` over the spatial-axis slots). -/
theorem c7_freq_table_construction (dim endPos p kf ks : ℕ) (hp : p < endPos)
    (hkf : kf < (dim - 2 * (dim / 3)) / 2) (hks : ks < (dim / 3) / 2) :
    (precompute_freqs_cis_3d dim endPos 10000).1.length = endPos ∧
    (precompute_freqs_cis_3d dim endPos 10000).2.1.length = endPos ∧
    (precompute_freqs_cis_3d dim endPos 10000).2.2.length = endPos ∧
    (∀ row ∈ (precompute_freqs_cis_3d dim endPos 10000).1,
      row.length = (dim - 2 * (dim / 3)) / 2) ∧
    (∀ row ∈ (precompute_freqs_cis_3d dim endPos 10000).2.1,
      row.length = (dim / 3) / 2) ∧
    (∀ row ∈ (precompute_freqs_cis_3d dim endPos 10000).2.2,
      row.length = (dim / 3) / 2) ∧
    ((precompute_freqs_cis_3d dim endPos 10000).1.getD p []).getD kf 0 =
      Complex.exp ((((p : ℝ) * (10000 : ℝ) ^
        (-((2 * (kf : ℝ)) / ((dim - 2 * (dim / 3) : ℕ) : ℝ)))) : ℝ) * Complex.I) ∧
    ((precompute_freqs_cis_3d dim endPos 10000).2.1.getD p []).getD ks 0 =
      Complex.exp ((((p : ℝ) * (10000 : ℝ) ^
        (-((2 * (ks : ℝ)) / ((dim / 3 : ℕ) : ℝ)))) : ℝ) * Complex.I) ∧
    ((precompute_freqs_cis_3d dim endPos 10000).2.2.getD p []).getD ks 0 =
      Complex.exp ((((p : ℝ) * (10000 : ℝ) ^
        (-((2 * (ks : ℝ)) / ((dim / 3 : ℕ) : ℝ)))) : ℝ) * Complex.I) ∧
    Complex.abs (((precompute_freqs_cis_3d dim endPos 10000).1.getD p []).getD kf 0) = 1 ∧
    Complex.abs (((precompute_freqs_cis_3d dim endPos 10000).2.1.getD p []).getD ks 0) = 1 ∧
    Complex.abs (((precompute_freqs_cis_3d dim endPos 10000).2.2.getD p []).getD ks 0) = 1 := by
  unfold precompute_freqs_cis_3d
  refine ⟨by simp [precompute_freqs_cis], by simp [precompute_freqs_cis],
    by simp [precompute_freqs_cis], ?_, ?_, ?_, ?_, ?_, ?_, ?_, ?_, ?_⟩
  · intro row hrow
    rw [precompute_freqs_cis] at hrow
    obtain ⟨q, _, rfl⟩ := List.mem_map.mp hrow
    simp
  · intro row hrow
    rw [precompute_freqs_cis] at hrow
    obtain ⟨q, _, rfl⟩ := List.mem_map.mp hrow
    simp
  · intro row hrow
    rw [precompute_freqs_cis] at hrow
    obtain ⟨q, _, rfl⟩ := List.mem_map.mp hrow
    simp
  · rw [show ((precompute_freqs_cis (dim - 2 * (dim / 3)) endPos 10000,
        precompute_freqs_cis (dim / 3) endPos 10000,
        precompute_freqs_cis (dim / 3) endPos 10000).1) =
        precompute_freqs_cis (dim - 2 * (dim / 3)) endPos 10000 from rfl,
      precompute_freqs_cis_entry _ _ _ _ _ hp hkf, freqsCisEntry_rpow_neg]
  · rw [show ((precompute_freqs_cis (dim - 2 * (dim / 3)) endPos 10000,
        precompute_freqs_cis (dim / 3) endPos 10000,
        precompute_freqs_cis (dim / 3) endPos 10000).2.1) =
        precompute_freqs_cis (dim / 3) endPos 10000 from rfl,
      precompute_freqs_cis_entry _ _ _ _ _ hp hks, freqsCisEntry_rpow_neg]
  · rw [show ((precompute_freqs_cis (dim - 2 * (dim / 3)) endPos 10000,
        precompute_freqs_cis (dim / 3) endPos 10000,
        precompute_freqs_cis (dim / 3) endPos 10000).2.2) =
        precompute_freqs_cis (dim / 3) endPos 10000 from rfl,
      precompute_freqs_cis_entry _ _ _ _ _ hp hks, freqsCisEntry_rpow_neg]
  · rw [show ((precompute_freqs_cis (dim - 2 * (dim / 3)) endPos 10000,
        precompute_freqs_cis (dim / 3) endPos 10000,
        precompute_freqs_cis (dim / 3) endPos 10000).1) =
        precompute_freqs_cis (dim - 2 * (dim / 3)) endPos 10000 from rfl,
      precompute_freqs_cis_entry _ _ _ _ _ hp hkf]
    exact freqsCisEntry_abs _ _ _ _
  · rw [show ((precompute_freqs_cis (dim - 2 * (dim / 3)) endPos 10000,
        precompute_freqs_cis (dim / 3) endPos 10000,
        precompute_freqs_cis (dim / 3) endPos 10000).2.1) =
        precompute_freqs_cis (dim / 3) endPos 10000 from rfl,
      precompute_freqs_cis_entry _ _ _ _ _ hp hks]
    exact freqsCisEntry_abs _ _ _ _
  · rw [show ((precompute_freqs_cis (dim - 2 * (dim / 3)) endPos 10000,
        precompute_freqs_cis (dim / 3) endPos 10000,
        precompute_freqs_cis (dim / 3) endPos 10000).2.2) =
        precompute_freqs_cis (dim / 3) endPos 10000 from rfl,
      precompute_freqs_cis_entry _ _ _ _ _ hp hks]
    exact freqsCisEntry_abs _ _ _ _

/-- Witness for C7: head dimension 16 (time axis 6 with 3 slots, spatial axes
5 with 2 slots), extent 1, position 0, time slot 2 (a slot past the spatial
slot count, reachable only through the time-axis bound) and spatial slot 1. -/
theorem c7_freq_table_construction_witness :
    (precompute_freqs_cis_3d 16 1 10000).1.length = 1 ∧
    (precompute_freqs_cis_3d 16 1 10000).2.1.length = 1 ∧
    (precompute_freqs_cis_3d 16 1 10000).2.2.length = 1 ∧
    (∀ row ∈ (precompute_freqs_cis_3d 16 1 10000).1,
      row.length = (16 - 2 * (16 / 3)) / 2) ∧
    (∀ row ∈ (precompute_freqs_cis_3d 16 1 10000).2.1, row.length = (16 / 3) / 2) ∧
    (∀ row ∈ (precompute_freqs_cis_3d 16 1 10000).2.2, row.length = (16 / 3) / 2) ∧
    ((precompute_freqs_cis_3d 16 1 10000).1.getD 0 []).getD 2 0 =
      Complex.exp ((((0 : ℕ) : ℝ) * (10000 : ℝ) ^
        (-((2 * ((2 : ℕ) : ℝ)) / ((16 - 2 * (16 / 3) : ℕ) : ℝ))) : ℝ) * Complex.I) ∧
    ((precompute_freqs_cis_3d 16 1 10000).2.1.getD 0 []).getD 1 0 =
      Complex.exp ((((0 : ℕ) : ℝ) * (10000 : ℝ) ^
        (-((2 * ((1 : ℕ) : ℝ)) / ((16 / 3 : ℕ) : ℝ))) : ℝ) * Complex.I) ∧
    ((precompute_freqs_cis_3d 16 1 10000).2.2.getD 0 []).getD 1 0 =
      Complex.exp ((((0 : ℕ) : ℝ) * (10000 : ℝ) ^
        (-((2 * ((1 : ℕ) : ℝ)) / ((16 / 3 : ℕ) : ℝ))) : ℝ) * Complex.I) ∧
    Complex.abs (((precompute_freqs_cis_3d 16 1 10000).1.getD 0 []).getD 2 0) = 1 ∧
    Complex.abs (((precompute_freqs_cis_3d 16 1 10000).2.1.getD 0 []).getD 1 0) = 1 ∧
    Complex.abs (((precompute_freqs_cis_3d 16 1 10000).2.2.getD 0 []).getD 1 0) = 1 :=
  c7_freq_table_construction 16 1 0 2 1 (by decide) (by decide) (by decide)

/-- C9 counterexample: the claim that cross attention fails whenever the
context is shorter than 257 tokens is false.  On a one-token context the
forward pass completes normally: the slice `y[:, :257]` silently yields the
whole context as the image branch, the text branch receives an empty context,
and an ordinary output value is produced. -/
theorem c9_short_context_no_failure :
    (([(5 : ℝ)] : List ℝ).length < 257) ∧
    ([(5 : ℝ)] : List ℝ).take 257 = [(5 : ℝ)] ∧
    ([(5 : ℝ)] : List ℝ).drop 257 = [] ∧
    CrossAttention.forward dummyCrossAttn true [(3 : ℝ)] [(5 : ℝ)] = [(3 : ℝ) + 3] := by
  refine ⟨by norm_num, rfl, rfl, ?_⟩
  rfl

/-- C9 (amended): with image conditioning enabled, the first 257 context
tokens feed the separate image K/V projection and norm, the rest feed the
text branch, and the image-branch attention output is added to the
text-branch output before the final output projection; when the context is
shorter than 257 tokens there is no failure: the whole context silently
becomes the image branch and the text branch receives an empty context. -/
theorem c9_cross_attention_image_split {V : Type} [Add V] (M : CrossAttnM V)
    (x y : List V) (hlen : 257 ≤ y.length) :
    (y.take 257).length = 257 ∧
    (y.drop 257).length = y.length - 257 ∧
    CrossAttention.forward M true x y =
      (List.zipWith (· + ·)
        (M.attn ((x.map M.q).map M.normQ) (((y.drop 257).map M.k).map M.normK)
          ((y.drop 257).map M.v))
        (M.attn ((x.map M.q).map M.normQ) (((y.take 257).map M.kImg).map M.normKImg)
          ((y.take 257).map M.vImg))).map M.o ∧
    (∀ yShort : List V, yShort.length < 257 →
      yShort.take 257 = yShort ∧ yShort.drop 257 = [] ∧
      CrossAttention.forward M true x yShort =
        (List.zipWith (· + ·)
          (M.attn ((x.map M.q).map M.normQ) [] [])
          (M.attn ((x.map M.q).map M.normQ) ((yShort.map M.kImg).map M.normKImg)
            (yShort.map M.vImg))).map M.o) := by
  refine ⟨?_, ?_, ?_, ?_⟩
  · rw [List.length_take]
    omega
  · rw [List.length_drop]
  · rfl
  · intro yShort hy
    have ht : yShort.take 257 = yShort := List.take_of_length_le (by omega)
    have hd : yShort.drop 257 = [] := List.drop_eq_nil_of_le (by omega)
    refine ⟨ht, hd, ?_⟩
    simp only [CrossAttention.forward, ht, hd, if_pos, List.map_nil]

/-- Witness for C9 (amended): a 300-token all-zero context. -/
theorem c9_cross_attention_image_split_witness :
    ((List.replicate 300 (0 : ℝ)).take 257).length = 257 ∧
    ((List.replicate 300 (0 : ℝ)).drop 257).length = (List.replicate 300 (0 : ℝ)).length - 257 ∧
    CrossAttention.forward dummyCrossAttn true [(1 : ℝ)] (List.replicate 300 (0 : ℝ)) =
      (List.zipWith (· + ·)
        (dummyCrossAttn.attn (([(1 : ℝ)].map dummyCrossAttn.q).map dummyCrossAttn.normQ)
          ((((List.replicate 300 (0 : ℝ)).drop 257).map dummyCrossAttn.k).map dummyCrossAttn.normK)
          (((List.replicate 300 (0 : ℝ)).drop 257).map dummyCrossAttn.v))
        (dummyCrossAttn.attn (([(1 : ℝ)].map dummyCrossAttn.q).map dummyCrossAttn.normQ)
          ((((List.replicate 300 (0 : ℝ)).take 257).map dummyCrossAttn.kImg).map dummyCrossAttn.normKImg)
          (((List.replicate 300 (0 : ℝ)).take 257).map dummyCrossAttn.vImg))).map dummyCrossAttn.o ∧
    (∀ yShort : List ℝ, yShort.length < 257 →
      yShort.take 257 = yShort ∧ yShort.drop 257 = [] ∧
      CrossAttention.forward dummyCrossAttn true [(1 : ℝ)] yShort =
        (List.zipWith (· + ·)
          (dummyCrossAttn.attn (([(1 : ℝ)].map dummyCrossAttn.q).map dummyCrossAttn.normQ) [] [])
          (dummyCrossAttn.attn (([(1 : ℝ)].map dummyCrossAttn.q).map dummyCrossAttn.normQ)
            ((yShort.map dummyCrossAttn.kImg).map dummyCrossAttn.normKImg)
            (yShort.map dummyCrossAttn.vImg))).map dummyCrossAttn.o) :=
  c9_cross_attention_image_split dummyCrossAttn [(1 : ℝ)] (List.replicate 300 (0 : ℝ))
    (by rw [List.length_replicate]; omega)

theorem moeTokenOut_second_slot_error {V : Type} [AddCommMonoid V] [Module ℝ V]
    (nE j : ℕ) (experts : ℕ → V → V) (t : V) (w : ℝ) (e : ℕ) (he : e < nE) :
    moeTokenOut nE (j + 2) experts t [w] [e] =
      .error "IndexError: index out of bounds for dimension 2" := by
  have hr : List.range (j + 2) = 0 :: 1 :: List.range' 2 j := by
    rw [List.range_eq_range']
    rfl
  unfold moeTokenOut
  rw [hr]
  simp only [List.foldlM, List.get?_cons_zero, List.get?_cons_succ, List.get?_nil]
  rw [if_pos he]
  rfl

/-- C10: `WanModelMoe.__init__` hard-codes the router `top_k` to 1, so
`compute_router_decisions` always returns weight and index tensors whose last
axis has size 1; a block configured with `top_k >= 2` then fails inside
`MultiModalMoE.forward` when slot `k = 1` indexes the size-1 last axis. -/
theorem c10_topk_hardcoded_one {V : Type} [AddCommMonoid V] [Module ℝ V]
    (t : V) (row : List V) (rest : List (List V)) (label : String)
    (blockTopK nE : ℕ) (experts : ℕ → V → V) (m : String)
    (h2 : 2 ≤ blockTopK) (he : modality_to_expert label < nE) :
    WanModelMoe.topK = 1 ∧
    (∀ b ∈ (compute_router_decisions ((t :: row) :: rest) label).2.1, ∀ s ∈ b,
      s.length = 1) ∧
    (∀ b ∈ (compute_router_decisions ((t :: row) :: rest) label).1, ∀ s ∈ b,
      s.length = 1) ∧
    (MultiModalMoE.forward nE blockTopK experts ((t :: row) :: rest)
        (compute_router_decisions ((t :: row) :: rest) label).1
        (compute_router_decisions ((t :: row) :: rest) label).2.1 m).1 =
      .error "IndexError: index out of bounds for dimension 2" := by
  obtain ⟨j, rfl⟩ : ∃ j, blockTopK = j + 2 := ⟨blockTopK - 2, by omega⟩
  refine ⟨rfl, ?_, ?_, ?_⟩
  · intro b hb s hs
    simp only [compute_router_decisions] at hb
    rw [List.eq_of_mem_replicate hb] at hs
    rw [List.eq_of_mem_replicate hs]
    rfl
  · intro b hb s hs
    simp only [compute_router_decisions] at hb
    rw [List.eq_of_mem_replicate hb] at hs
    rw [List.eq_of_mem_replicate hs]
    rfl
  · simp only [MultiModalMoE.forward, compute_router_decisions, List.length_cons,
      List.headD_cons, List.replicate_succ, List.replicate_zero, WanModelMoe.topK]
    simp only [zip3M, moeTokenOut_second_slot_error nE j experts t 1
      (modality_to_expert label) he]
    rfl

/-- Witness for C10: one real token, label nuscenes (expert 1 of 4), block
`top_k = 2`. -/
theorem c10_topk_hardcoded_one_witness :
    (2 ≤ 2) ∧ modality_to_expert "nuscenes" < 4 ∧
    (WanModelMoe.topK = 1 ∧
    (∀ b ∈ (compute_router_decisions [[(0 : ℝ)]] "nuscenes").2.1, ∀ s ∈ b,
      s.length = 1) ∧
    (∀ b ∈ (compute_router_decisions [[(0 : ℝ)]] "nuscenes").1, ∀ s ∈ b,
      s.length = 1) ∧
    (MultiModalMoE.forward 4 2 (fun _ v => v) [[(0 : ℝ)]]
        (compute_router_decisions [[(0 : ℝ)]] "nuscenes").1
        (compute_router_decisions [[(0 : ℝ)]] "nuscenes").2.1 "nuscenes").1 =
      .error "IndexError: index out of bounds for dimension 2") :=
  ⟨by norm_num, by decide,
   c10_topk_hardcoded_one (0 : ℝ) [] [] "nuscenes" 2 4 (fun _ v => v) "nuscenes"
     (by norm_num) (by decide)⟩
